import Mathlib

/-!
Verification of the Drugs_Cleaned pipeline against its specification.

The development shallowly embeds the decision logic of the repository:

* `src/utils.py` — the Best-Structure Selector (`find_best_pdb_structure`,
  `check_mutations_in_pdb`), with the RCSB/UniProt network endpoints
  abstracted as oracle functions supplied in a `SelectorEnv`;
* `src/docking.py` — the docking driver and pose aggregator
  (`run_molecular_docking`), with the Vina engine abstracted as an
  energy oracle in a `DockEnv`;
* `src/admet_analysis.py` — the ADMET stage (`run_admet_prediction`)
  and its caller `process_admet` from `src/app.py`, with the rdkit /
  adme-py / ADMET-AI backends abstracted as oracles in an `AdmetEnv`;
* the Structure Cleaner `remove_ligands_from_pdb`, which `src/app.py`
  imports but whose definition is absent from the sources, modelled
  from the specification text.

Python floats are modelled as rationals (the properties proved only use
ordering and exact decimal constants), machine-level file IO as explicit
lists of persisted records, and network calls as oracle functions.
-/

/-! ## Best-Structure Selector (src/utils.py) -/

/-- Data the RCSB endpoints report about one structure entry, as read by
`check_mutations_in_pdb`: the polymer entity count from the entry endpoint
(already defaulted to 1 when the entry request fails, as the source does),
and for each entity index the pair of mutation counts
(`entity_poly.rcsb_mutation_count`, `rcsb_polymer_entity.mutation_count`),
each already defaulted to 0 when the enclosing dict or key is missing;
`none` models a 404 or request error for that entity. -/
structure PdbEntry where
  polymerEntityCount : Nat
  entityMutCounts : Nat → Option (Nat × Nat)

/-- Embedding of `check_mutations_in_pdb` (src/utils.py:126-176): scan the
polymer entities `1 .. polymerEntityCount`; an entity answering 404 or a
request error is skipped; report `true` as soon as either mutation count of
some entity is nonzero, `false` when no entity reports mutations. -/
def check_mutations_in_pdb (e : PdbEntry) : Bool :=
  (List.range e.polymerEntityCount).any fun k =>
    match e.entityMutCounts (k + 1) with
    | none => false
    | some (m₁, m₂) => decide (0 < m₁) || decide (0 < m₂)

/-- The external services `find_best_pdb_structure` consults, as oracles:
`uniprotOf` models `search_uniprot_for_reviewed_human`, `pdbIdsOf` models
`get_pdb_ids_from_uniprot`, `resolutionOf` models `get_pdb_resolution`
(`none` exactly when the method is not X-ray or no resolution is available),
`entryOf` supplies the data `check_mutations_in_pdb` reads, and
`downloadOf` models `download_pdb_file` (the saved path, or `none`). -/
structure SelectorEnv where
  uniprotOf : String → Option String
  pdbIdsOf : String → List String
  resolutionOf : String → Option ℚ
  entryOf : String → PdbEntry
  downloadOf : String → Option String

/-- The mutation flag the search loop consults for a candidate identifier. -/
def SelectorEnv.hasMutations (env : SelectorEnv) (id : String) : Bool :=
  check_mutations_in_pdb (env.entryOf id)

/-- State of the search loop in `find_best_pdb_structure`:
`best` is `best_candidate`, `checked` is `checked_count`, and `examined`
records, in order, the identifiers for which the loop has fetched metadata
(every `get_pdb_resolution` call; mutation lookups are issued for a subset
of these), so that claims about which candidates the loop examines can be
stated. -/
structure SearchState where
  best : Option (String × ℚ)
  checked : Nat
  examined : List String
deriving DecidableEq

/-- The adoption test of src/utils.py:264:
`best_candidate is None or resolution < best_candidate[1]`. -/
def adoptCond (best : Option (String × ℚ)) (res : ℚ) : Bool :=
  match best with
  | none => true
  | some b => decide (res < b.2)

/-- Embedding of the candidate loop of `find_best_pdb_structure`
(src/utils.py:241-271), one constructor case per iteration:
stop when `checked_count >= max_check`; skip identifiers whose resolution
is unavailable (they do not touch `checked_count`); count the candidate,
check mutations, and skip it if mutations are present; otherwise adopt it
when the adoption test passes, stopping the whole search immediately when
the adopted resolution is strictly below 1.5 Å. -/
def searchLoop (env : SelectorEnv) (maxCheck : Nat) :
    List String → SearchState → SearchState
  | [], st => st
  | id :: rest, st =>
    if maxCheck ≤ st.checked then st
    else
      match env.resolutionOf id with
      | none => searchLoop env maxCheck rest { st with examined := st.examined ++ [id] }
      | some res =>
        let st' : SearchState :=
          { st with checked := st.checked + 1, examined := st.examined ++ [id] }
        if env.hasMutations id then searchLoop env maxCheck rest st'
        else if adoptCond st'.best res then
          if res < 1.5 then { st' with best := some (id, res) }
          else searchLoop env maxCheck rest { st' with best := some (id, res) }
        else searchLoop env maxCheck rest st'

/-- Embedding of `find_best_pdb_structure` (src/utils.py:204-287):
resolve the protein name to a reviewed accession, enumerate its PDB ids,
run the search loop from the empty state, and download the best candidate,
returning `(pdb_id, file_path)` or `none` at each failure point exactly as
the source does. -/
def find_best_pdb_structure (env : SelectorEnv) (protein_name : String)
    (maxCheck : Nat) : Option (String × String) :=
  match env.uniprotOf protein_name with
  | none => none
  | some uid =>
    if env.pdbIdsOf uid = [] then none
    else
      match (searchLoop env maxCheck (env.pdbIdsOf uid) ⟨none, 0, []⟩).best with
      | none => none
      | some (pid, _) => (env.downloadOf pid).map fun path => (pid, path)

/-! Concrete selector environments used by the witnesses.

`envAB` realises end-to-end scenario 2 of the specification:
candidate A has resolution 1.8 Å but mutations, candidate B has
resolution 2.5 Å and none. `envEarly` realises the early-exit scenario:
candidate E1 has resolution 1.2 Å and no mutations, with further
candidates behind it. -/

def noMutEntry : PdbEntry := ⟨1, fun _ => some (0, 0)⟩

def mutEntry : PdbEntry := ⟨1, fun _ => some (1, 0)⟩

def envAB : SelectorEnv where
  uniprotOf := fun s => if s = "prot" then some "U1" else none
  pdbIdsOf := fun u => if u = "U1" then ["A", "B"] else []
  resolutionOf := fun id =>
    if id = "A" then some 1.8 else if id = "B" then some 2.5 else none
  entryOf := fun id => if id = "A" then mutEntry else noMutEntry
  downloadOf := fun id => some ("proteins/" ++ id ++ ".pdb")

def envEarly : SelectorEnv where
  uniprotOf := fun s => if s = "prot" then some "U1" else none
  pdbIdsOf := fun u => if u = "U1" then ["E1", "E2", "E3"] else []
  resolutionOf := fun id =>
    if id = "E1" then some 1.2 else if id = "E2" then some 2.0 else
    if id = "E3" then some 1.0 else none
  entryOf := fun _ => noMutEntry
  downloadOf := fun id => some ("proteins/" ++ id ++ ".pdb")

/-- A tie environment: candidates A and B both resolve at 1.8 Å, both
mutation-free. -/
def envTie : SelectorEnv where
  uniprotOf := fun s => if s = "prot" then some "U1" else none
  pdbIdsOf := fun u => if u = "U1" then ["A", "B"] else []
  resolutionOf := fun id =>
    if id = "A" then some 1.8 else if id = "B" then some 1.8 else none
  entryOf := fun _ => noMutEntry
  downloadOf := fun id => some ("proteins/" ++ id ++ ".pdb")

/-! ## Pocket-Ligand Docking Driver and Pose Aggregator (src/docking.py) -/

/-- One row of the PrankWeb pocket table as `run_molecular_docking` reads
it: the stripped pocket name and the three box-center coordinates. -/
structure Pocket where
  name : String
  center_x : ℚ
  center_y : ℚ
  center_z : ℚ
deriving DecidableEq

/-- The inputs of `run_molecular_docking`, with the session record, the
filesystem and the Vina engine abstracted: `prepared_pdbqt` is whether the
session holds a prepared receptor, `prankweb_csv` whether a predictions CSV
is found, `ligand_folder` whether the ligand directory exists, `pockets`
the rows of the pocket table, `ligands` the ligand names (file basenames
without extension), and `energiesOf lig pocket` the ranked binding energies
the engine reports for that pair (`v.energies`, best first). -/
structure DockEnv where
  prepared_pdbqt : Bool
  prankweb_csv : Bool
  ligand_folder : Bool
  pockets : List Pocket
  ligands : List String
  energiesOf : String → String → List ℚ

/-- One entry of `ligand_best_poses` / `summary_data`
(src/docking.py:154-163): ligand, pocket, 1-based pose number, binding
energy and box center. -/
structure PoseRec where
  ligand : String
  pocket : String
  pose_number : Nat
  binding_energy : ℚ
  center_x : ℚ
  center_y : ℚ
  center_z : ℚ
deriving DecidableEq

/-- The pose energies the engine reports for one (ligand, pocket) pair,
capped at the 10 poses requested by `n_poses=10` in both
`v.energies(n_poses=10)` and `v.write_poses(..., n_poses=10)`. -/
def pairScores (env : DockEnv) (lig : String) (pk : Pocket) : List ℚ :=
  (env.energiesOf lig pk.name).take 10

/-- The good poses of one (ligand, pocket) pair (src/docking.py:151-163):
`[(i+1, score) for i, score in enumerate(scores) if score <= -7.0]`,
tagged with ligand, pocket and center. -/
def pairGoodPoses (env : DockEnv) (lig : String) (pk : Pocket) : List PoseRec :=
  ((pairScores env lig pk).enum.filter fun p => decide (p.2 ≤ -7)).map fun p =>
    ⟨lig, pk.name, p.1 + 1, p.2, pk.center_x, pk.center_y, pk.center_z⟩

/-- `ligand_best_poses` for one ligand: the good poses accumulated over the
pocket rows in table order (src/docking.py:132-163). -/
def ligandBestPoses (env : DockEnv) (lig : String) : List PoseRec :=
  env.pockets.flatMap (pairGoodPoses env lig)

/-- The comparison key of `ligand_best_poses.sort(key=lambda x:
x['binding_energy'])`. -/
def poseLE (a b : PoseRec) : Bool :=
  decide (a.binding_energy ≤ b.binding_energy)

/-- Top-3 selection for one ligand (src/docking.py:178-181): stable sort by
binding energy ascending (Python `list.sort` is stable, modelled by
`mergeSort`), then keep the first three. -/
def ligandTop3 (poses : List PoseRec) : List PoseRec :=
  (poses.mergeSort poseLE).take 3

/-- The rows one ligand contributes to `summary_data`: nothing when it has
no good poses, its top 3 otherwise (src/docking.py:178-181). -/
def ligandSummaryRows (env : DockEnv) (lig : String) : List PoseRec :=
  if (ligandBestPoses env lig).isEmpty then [] else ligandTop3 (ligandBestPoses env lig)

/-- `summary_data`: the concatenation of every ligand's top-3 rows, in
ligand file order. -/
def summaryData (env : DockEnv) : List PoseRec :=
  env.ligands.flatMap (ligandSummaryRows env)

/-- Decimal rounding to `k` places, modelling `pandas.Series.round(k)` on
the exact rational values. -/
def roundTo (k : Nat) (q : ℚ) : ℚ :=
  ((round (q * 10 ^ k) : ℤ) : ℚ) / 10 ^ k

/-- The numeric policy applied to the persisted summary
(src/docking.py:188-191): binding energy rounded to 3 decimals, center
coordinates to 2. -/
def roundRow (r : PoseRec) : PoseRec :=
  ⟨r.ligand, r.pocket, r.pose_number, roundTo 3 r.binding_energy,
   roundTo 2 r.center_x, roundTo 2 r.center_y, roundTo 2 r.center_z⟩

/-- `summary_df` as persisted to docking_summary.csv: the selected rows,
rounded after selection. -/
def summaryDf (env : DockEnv) : List PoseRec :=
  (summaryData env).map roundRow

/-- The per-pair pose files written to docking_results/pdbqt by
`v.write_poses(pdbqt_file, n_poses=10, overwrite=True)`
(src/docking.py:166-167): one record per (ligand, pocket) pair holding the
full, unfiltered pose set of that pair. -/
def persistedPoseFiles (env : DockEnv) : List (String × String × List ℚ) :=
  env.ligands.flatMap fun lig =>
    env.pockets.map fun pk => (lig, pk.name, pairScores env lig pk)

/-- The distinct outcomes `run_molecular_docking` reports: the three
precondition errors (no prepared receptor, no PrankWeb CSV, no ligand
folder), the missing-ligand-files error, the distinct warning yielded when
no pose met the −7.0 kcal/mol threshold, and success carrying the summary
table. -/
inductive DockOutcome
  | errNoPreparedProtein
  | errNoPrankwebResults
  | errNoLigandFolder
  | errNoLigandFiles
  | noQualifyingPoses
  | success (summary : List PoseRec)
deriving DecidableEq

/-- Embedding of `run_molecular_docking` (src/docking.py:14-223): check the
preconditions in source order, dock every (ligand, pocket) pair persisting
each pair's full pose set, and report either the rounded summary of the
selected poses or the distinct no-qualifying-poses outcome when
`summary_data` is empty. The returned pair is (yielded outcome, pose files
written). -/
def run_molecular_docking (env : DockEnv) :
    DockOutcome × List (String × String × List ℚ) :=
  if ¬ env.prepared_pdbqt then (.errNoPreparedProtein, [])
  else if ¬ env.prankweb_csv then (.errNoPrankwebResults, [])
  else if ¬ env.ligand_folder then (.errNoLigandFolder, [])
  else if env.ligands.isEmpty then (.errNoLigandFiles, [])
  else if (summaryData env).isEmpty then (.noQualifyingPoses, persistedPoseFiles env)
  else (.success (summaryDf env), persistedPoseFiles env)

/-! Concrete docking environments used by the witnesses. -/

/-- Two pockets, one ligand, five poses total of which four are good
(energies −9.0 and −8.2 in p1; −7.5 and −7.1 in p2). -/
def dockEnvGood : DockEnv where
  prepared_pdbqt := true
  prankweb_csv := true
  ligand_folder := true
  pockets := [⟨"p1", 1, 2, 3⟩, ⟨"p2", 4, 5, 6⟩]
  ligands := ["lig1"]
  energiesOf := fun _ pk =>
    if pk = "p1" then [-9.0, -8.2, -5.0] else [-7.5, -7.1, -6.0]

/-- Same shape but no pose reaches the −7.0 kcal/mol threshold. -/
def dockEnvNone : DockEnv where
  prepared_pdbqt := true
  prankweb_csv := true
  ligand_folder := true
  pockets := [⟨"p1", 1, 2, 3⟩]
  ligands := ["lig1"]
  energiesOf := fun _ _ => [-6.5, -5.0]

/-! ## ADMET stage (src/admet_analysis.py) and its caller (src/app.py) -/

/-- A cell value of the ADMET report: a numeric prediction, a string
(labels, "Yes"/"No", "N/A", "Error"), or a missing value (pandas NaN). -/
inductive PValue where
  | num (q : ℚ)
  | str (s : String)
  | na
deriving DecidableEq

/-- The dict-get default of `run_admet_prediction`: a missing key is
reported as the string "N/A". -/
def PValue.orNA : Option PValue -> PValue
  | none => .str "N/A"
  | some v => v

/-- The fields `run_admet_prediction` reads from `ADME(smiles).calculate()`
(src/admet_analysis.py:64-95); `none` models a missing dict key, and
`pains` / `brenk` carry the truthiness the source tests. `fsp3` carries the
sp3-carbon-fraction key of the physiochemical dict. -/
structure AdmeResult where
  molecular_weight : Option PValue
  tpsa : Option PValue
  num_h_donors : Option PValue
  num_h_acceptors : Option PValue
  num_rotatable_bonds : Option PValue
  fsp3 : Option PValue
  wlogp : Option PValue
  gastrointestinal_absorption : Option PValue
  lipinski : Option PValue
  pains : Bool
  brenk : Bool
  synthetic_accessibility : Option PValue

/-- The adme-py row dict exactly as src/admet_analysis.py:64-101 builds it:
on success the 12 keys in insertion order with "N/A" defaults and Yes/No
for the PAINS/Brenk truthiness; on an exception the 5 "Error" keys. -/
def admeRow (r : Option AdmeResult) : List (String × PValue) :=
  match r with
  | some a =>
    [("MW", PValue.orNA a.molecular_weight),
     ("TPSA", PValue.orNA a.tpsa),
     ("HBD", PValue.orNA a.num_h_donors),
     ("HBA", PValue.orNA a.num_h_acceptors),
     ("Rotatable Bonds", PValue.orNA a.num_rotatable_bonds),
     ("Fsp3", PValue.orNA a.fsp3),
     ("WLogP", PValue.orNA a.wlogp),
     ("GI Absorption", PValue.orNA a.gastrointestinal_absorption),
     ("Lipinski", PValue.orNA a.lipinski),
     ("PAINS", .str (if a.pains then "Yes" else "No")),
     ("Brenk", .str (if a.brenk then "Yes" else "No")),
     ("SA Score", PValue.orNA a.synthetic_accessibility)]
  | none =>
    [("MW", .str "Error"), ("WLogP", .str "Error"), ("TPSA", .str "Error"),
     ("Lipinski", .str "Error"), ("SA Score", .str "Error")]

/-- One row of the ADMET-AI prediction frame, as read by
src/admet_analysis.py:113-126 (fields named after the source's keys). -/
structure AdmetPreds where
  caco2_wang : PValue
  bbb_martins : PValue
  ppbr_az : PValue
  cyp3a4_veith : PValue
  cyp2d6_veith : PValue
  herg : PValue
  ames : PValue
  dili : PValue
  carcinogens_lagunin : PValue
  ld50_zhu : PValue
  qed : PValue
deriving DecidableEq

/-- The `admet_mapped` columns for one compound, in the source's insertion
order (src/admet_analysis.py:113-126). -/
def admetRow (p : AdmetPreds) : List (String × PValue) :=
  [("Caco-2 (Wang)", p.caco2_wang),
   ("BBB (Martins)", p.bbb_martins),
   ("PPB (AZ)", p.ppbr_az),
   ("CYP3A4 Inhibition", p.cyp3a4_veith),
   ("CYP2D6 Inhibition", p.cyp2d6_veith),
   ("hERG", p.herg),
   ("Ames", p.ames),
   ("DILI", p.dili),
   ("Carcinogenicity", p.carcinogens_lagunin),
   ("LD50 (Zhu)", p.ld50_zhu),
   ("QED", p.qed)]

/-- The inputs of `run_admet_prediction` with the filesystem and the two
prediction backends abstracted: `pdbFiles` is the glob result, `smilesOf`
models `pdb_to_smiles`, `admeOf` the adme-py call keyed by SMILES (`none`
for an exception), `admetAiOk` whether the ADMET-AI model ran without an
exception, and `predsOf` its per-SMILES prediction row. -/
structure AdmetEnv where
  pdbFiles : List String
  smilesOf : String -> Option String
  admeOf : String -> Option AdmeResult
  admetAiOk : Bool
  predsOf : String -> AdmetPreds

/-- The `compounds` list (src/admet_analysis.py:48-56): the files whose
SMILES conversion succeeded, as (Filename, SMILES) pairs. -/
def compounds (env : AdmetEnv) : List (String × String) :=
  env.pdbFiles.filterMap fun f => (env.smilesOf f).map fun s => (f, s)

/-- `DISPLAY_COLUMNS` of src/admet_analysis.py:9-21, verbatim. -/
def DISPLAY_COLUMNS : List String :=
  ["Filename",
   "MW", "WLogP", "TPSA", "HBD", "HBA", "Rotatable Bonds", "Fsp3",
   "GI Absorption", "Caco-2 (Wang)", "BBB (Martins)", "PPB (AZ)",
   "CYP3A4 Inhibition", "CYP2D6 Inhibition",
   "hERG", "Ames", "DILI", "Carcinogenicity", "LD50 (Zhu)",
   "Lipinski", "PAINS", "Brenk", "QED", "SA Score"]

/-- The merged `final_df` row for one compound: base columns, adme-py
columns, and (when the ADMET-AI call succeeded) the mapped toxicity
columns; on an ADMET-AI exception `admet_mapped` has no columns. -/
def fullRow (env : AdmetEnv) (c : String × String) : List (String × PValue) :=
  [("Filename", .str c.1), ("SMILES", .str c.2)]
    ++ admeRow (env.admeOf c.2)
    ++ (if env.admetAiOk then admetRow (env.predsOf c.2) else [])

/-- Column set of a pandas DataFrame built from a list of row dicts:
the union of the rows' keys in first-appearance order. -/
def unionKeys (rows : List (List (String × PValue))) : List String :=
  rows.foldl (fun acc row =>
    acc ++ (row.map Prod.fst).filter (fun k => decide (k ∉ acc))) []

/-- The column names `admet_mapped` holds when the ADMET-AI call
succeeded. -/
def admetColumns : List String :=
  (admetRow ⟨.na, .na, .na, .na, .na, .na, .na, .na, .na, .na, .na⟩).map Prod.fst

/-- The columns of the merged `final_df`, in concatenation order. -/
def allColumns (env : AdmetEnv) : List String :=
  ["Filename", "SMILES"]
    ++ unionKeys ((compounds env).map fun c => admeRow (env.admeOf c.2))
    ++ (if env.admetAiOk then admetColumns else [])

/-- `existing_cols` (src/admet_analysis.py:143): the display columns that
exist in the merged frame, in display order. -/
def existingCols (env : AdmetEnv) : List String :=
  DISPLAY_COLUMNS.filter (fun c => decide (c ∈ allColumns env))

/-- The columns rounded for the UI (src/admet_analysis.py:147). -/
def numericCols : List String :=
  ["MW", "WLogP", "TPSA", "Fsp3", "SA Score", "QED", "LD50 (Zhu)", "PPB (AZ)"]

/-- `pd.to_numeric(errors="coerce").round(2)` on one cell of a numeric
column: numeric values are rounded to 2 decimals, anything non-numeric
becomes NaN; cells of other columns pass through unchanged. -/
def roundCell (col : String) (v : PValue) : PValue :=
  if col ∈ numericCols then
    match v with
    | .num q => .num (roundTo 2 q)
    | _ => .na
  else v

/-- One row of `final_df_clean`: the existing display columns in order,
each cell looked up in the merged row (missing ↦ NaN) and rounded when in
a numeric column. -/
def cleanRow (env : AdmetEnv) (c : String × String) : List (String × PValue) :=
  (existingCols env).map fun col =>
    (col, roundCell col (((fullRow env c).lookup col).getD PValue.na))

/-- The `final_df_clean` table returned and persisted by
`run_admet_prediction`: one clean row per compound. -/
def final_table (env : AdmetEnv) : List (List (String × PValue)) :=
  (compounds env).map (cleanRow env)

/-- The failure message of src/admet_analysis.py:45. -/
def noFilesMsg : String :=
  "No ligand PDB files found in docking_results/pdb. Please run docking first."

/-- The failure message of src/admet_analysis.py:59. -/
def noSmilesMsg : String :=
  "Could not generate valid SMILES from PDB files."

/-- The CSV path of src/admet_analysis.py:154. -/
def admetCsvPath : String := "results/final_admet_report.csv"

/-- The success message of src/admet_analysis.py:157. -/
def analysisMsg (n : Nat) : String :=
  "Analysis Complete. Processed " ++ toString n ++ " ligands."

/-- Embedding of `run_admet_prediction` (src/admet_analysis.py:33-157).
The Python function can in principle return `None` only by falling off the
end; its body returns a 3-tuple at every return site, embedded here as the
`some` cases: the two failure tuples `(message, None, None)` and the
success tuple `(message, table, csv path)`. -/
def run_admet_prediction (env : AdmetEnv) :
    Option (String × Option (List (List (String × PValue))) × Option String) :=
  if env.pdbFiles = [] then some (noFilesMsg, none, none)
  else if compounds env = [] then some (noSmilesMsg, none, none)
  else some (analysisMsg (final_table env).length, some (final_table env),
    some admetCsvPath)

/-- What `process_admet` (src/app.py:126-158) renders: the dedicated
failure message branch taken only when the result is `None`, the success
branch that unpacks any 3-tuple into status, table and download widgets,
and the system-error branch for an exception. -/
inductive AdmetRender where
  | failureNone
  | success (msg : String) (df : Option (List (List (String × PValue))))
      (csv : Option String)
  | systemError (msg : String)
deriving DecidableEq

/-- Embedding of the result dispatch of `process_admet` (src/app.py:133-150):
`if result is None` renders the failure branch, otherwise the tuple is
unpacked and rendered through the success branch. -/
def process_admet
    (r : Option (String × Option (List (List (String × PValue))) × Option String)) :
    AdmetRender :=
  match r with
  | none => .failureNone
  | some (m, d, c) => .success m d c

/-! Concrete ADMET environments used by the claims. -/

/-- A complete adme-py result with unexceptional values. -/
def fullAdme : AdmeResult :=
  ⟨some (.num 320), some (.num 80), some (.num 2), some (.num 5),
   some (.num 4), some (.num (1/2)), some (.num 3), some (.str "High"),
   some (.str "Pass"), false, false, some (.num 3)⟩

/-- An ADMET-AI row whose AMES prediction is positive (0.97). -/
def amesPositivePreds : AdmetPreds :=
  ⟨.num (1/2), .num (1/2), .num (1/2), .num (1/2), .num (1/2),
   .num (1/10), .num (97/100), .num (1/10), .num (1/10), .num 2,
   .num (6/10)⟩

/-- One docked ligand pose file whose ligand is predicted Ames-positive;
every backend call succeeds. -/
def amesEnv : AdmetEnv where
  pdbFiles := ["lig1_p1_ligand_poses.pdb"]
  smilesOf := fun _ => some "c1ccccc1"
  admeOf := fun _ => some fullAdme
  admetAiOk := true
  predsOf := fun _ => amesPositivePreds

/-- The environment in which the glob finds no ligand pose files. -/
def emptyAdmetEnv : AdmetEnv where
  pdbFiles := []
  smilesOf := fun _ => none
  admeOf := fun _ => none
  admetAiOk := false
  predsOf := fun _ => ⟨.na, .na, .na, .na, .na, .na, .na, .na, .na, .na, .na⟩

/-! ## Structure Cleaner (imported in src/app.py, absent from src/) -/

/-- Modelled from the spec: the Structure Cleaner `remove_ligands_from_pdb`
is imported from `utils` by src/app.py:13 and called at src/app.py:68, but
its definition is missing from the repository sources; this model follows
spec section 4.1. A structure record line is an atom line of the retained
or another chain, a heteroatom line, a connectivity line referencing atom
serial numbers, or a structural/administrative line passed through
verbatim; a malformed serial or chain field is `none` and the line is then
skipped for classification purposes. -/
inductive PdbLine where
  | atom (serial : Option Nat) (chain : Option Char)
  | hetatm (serial : Option Nat) (chain : Option Char)
  | conect (serials : List Nat)
  | other (text : String)
deriving DecidableEq

/-- Modelled from the spec: the counts the Cleaner contract returns
alongside the cleaned record (spec section 4.1):
{heteroatoms_removed, atoms_kept, chains_removed (set),
connectivity_records_removed}. -/
structure CleanStats where
  heteroatoms_removed : Nat
  atoms_kept : Nat
  chains_removed : List Char
  connectivity_removed : Nat
deriving DecidableEq

/-- Pass 1 of the Cleaner: the serial numbers of the atom lines belonging
to the retained chain (lines with a malformed serial or chain contribute
nothing). -/
def retainedSerials (ls : List PdbLine) (keep : Char) : List Nat :=
  ls.filterMap fun l =>
    match l with
    | .atom (some n) (some c) => if c = keep then some n else none
    | _ => none

/-- Pass 2 line classification: keep atom lines of the retained chain
only, drop all heteroatom lines unconditionally, keep a connectivity line
only when every serial it references is in the retained set, and pass
other lines through verbatim. -/
def keepLine (retained : List Nat) (keep : Char) : PdbLine -> Bool
  | .atom _ (some c) => decide (c = keep)
  | .atom _ none => false
  | .hetatm _ _ => false
  | .conect ss => ss.all (fun n => decide (n ∈ retained))
  | .other _ => true

/-- Whether a line is an atom line of some chain other than `keep`. -/
def foreignChainOf (keep : Char) : PdbLine -> Option Char
  | .atom _ (some c) => if c = keep then none else some c
  | _ => none

/-- Modelled from the spec: `remove_ligands_from_pdb` (spec section 4.1) —
two passes: collect the retained chain's atom serial numbers, then copy
the retained chain's atom lines, drop every heteroatom line, drop
connectivity lines referencing any serial outside the retained set, and
pass structural/administrative lines through verbatim; returns the cleaned
record and the removal counts. -/
def remove_ligands_from_pdb (ls : List PdbLine) (keep : Char) :
    List PdbLine × CleanStats :=
  (ls.filter (keepLine (retainedSerials ls keep) keep),
   ⟨ls.countP (fun l => match l with | .hetatm _ _ => true | _ => false),
    (ls.filter (keepLine (retainedSerials ls keep) keep)).countP
      (fun l => match l with | .atom _ _ => true | _ => false),
    (ls.filterMap (foreignChainOf keep)).dedup,
    ls.countP (fun l =>
      match l with
      | .conect ss => !(ss.all fun n => decide (n ∈ retainedSerials ls keep))
      | _ => false)⟩)

/-! Helper lemmas about the search loop. -/

/-- The `examined` trace threads through the loop by appending: running the
loop from a state whose trace is `e` produces the same `best` and `checked`
as from the empty trace, with `e` prepended to the resulting trace. -/
lemma searchLoop_examined_shift (env : SelectorEnv) (m : Nat) (ids : List String) :
    ∀ b c e, searchLoop env m ids ⟨b, c, e⟩ =
      ⟨(searchLoop env m ids ⟨b, c, []⟩).best, (searchLoop env m ids ⟨b, c, []⟩).checked,
       e ++ (searchLoop env m ids ⟨b, c, []⟩).examined⟩ := by
  induction ids with
  | nil => intro b c e; simp [searchLoop]
  | cons id rest ih =>
    intro b c e
    by_cases hm : m ≤ c
    · simp [searchLoop, hm]
    · cases hres : env.resolutionOf id with
      | none =>
        simp only [searchLoop, hm, if_false, hres]
        rw [ih b c (e ++ [id]), ih b c ([] ++ [id])]
        simp
      | some res =>
        simp only [searchLoop, hm, if_false, hres]
        cases hmut : env.hasMutations id with
        | true =>
          simp only [hmut, if_true]
          rw [ih b (c + 1) (e ++ [id]), ih b (c + 1) ([] ++ [id])]
          simp
        | false =>
          simp only [hmut, Bool.false_eq_true, if_false]
          cases had : adoptCond b res with
          | false =>
            simp only [had, Bool.false_eq_true, if_false]
            rw [ih b (c + 1) (e ++ [id]), ih b (c + 1) ([] ++ [id])]
            simp
          | true =>
            simp only [had, if_true]
            by_cases hlt : res < 1.5
            · simp [hlt]
            · simp only [hlt, if_false]
              rw [ih (some (id, res)) (c + 1) (e ++ [id]),
                ih (some (id, res)) (c + 1) ([] ++ [id])]
              simp

/-- Once `checked_count` has reached `max_check`, the loop stops at once. -/
lemma searchLoop_stop (env : SelectorEnv) (m : Nat) (ids : List String)
    (st : SearchState) (h : m ≤ st.checked) : searchLoop env m ids st = st := by
  cases ids with
  | nil => rfl
  | cons id rest => simp [searchLoop, h]

/-- The checked-count invariant: if it starts at most `max_check`, it stays
at most `max_check` throughout the loop. -/
lemma searchLoop_checked_le (env : SelectorEnv) (m : Nat) :
    ∀ ids st, st.checked ≤ m → (searchLoop env m ids st).checked ≤ m := by
  intro ids
  induction ids with
  | nil => intro st h; simpa [searchLoop] using h
  | cons id rest ih =>
    intro st h
    by_cases hm : m ≤ st.checked
    · simpa [searchLoop, hm] using h
    · have hlt : st.checked < m := lt_of_not_le hm
      cases hres : env.resolutionOf id with
      | none =>
        simp only [searchLoop, hm, if_false, hres]
        exact ih _ h
      | some res =>
        have h1 : st.checked + 1 ≤ m := hlt
        simp only [searchLoop, hm, if_false, hres]
        cases hmut : env.hasMutations id with
        | true =>
          simpa [hmut] using
            ih ⟨st.best, st.checked + 1, st.examined ++ [id]⟩ h1
        | false =>
          simp only [hmut, Bool.false_eq_true, if_false]
          cases had : adoptCond st.best res with
          | false =>
            simpa [had] using
              ih ⟨st.best, st.checked + 1, st.examined ++ [id]⟩ h1
          | true =>
            simp only [had, if_true]
            by_cases h15 : res < 1.5
            · simpa [h15] using h1
            · simpa [h15] using
                ih ⟨some (id, res), st.checked + 1, st.examined ++ [id]⟩ h1

/-- Any best candidate the loop ever produces is mutation-free, provided
the initial best candidate (if any) is. -/
lemma searchLoop_best_mutFree (env : SelectorEnv) (m : Nat) :
    ∀ ids st, (∀ p, st.best = some p → env.hasMutations p.1 = false) →
      ∀ q, (searchLoop env m ids st).best = some q → env.hasMutations q.1 = false := by
  intro ids
  induction ids with
  | nil => intro st h q hq; exact h q hq
  | cons id rest ih =>
    intro st h q hq
    by_cases hm : m ≤ st.checked
    · rw [searchLoop_stop env m _ st hm] at hq
      exact h q hq
    · cases hres : env.resolutionOf id with
      | none =>
        rw [searchLoop] at hq
        simp only [hm, if_false, hres] at hq
        exact ih ⟨st.best, st.checked, st.examined ++ [id]⟩ h q hq
      | some res =>
        rw [searchLoop] at hq
        simp only [hm, if_false, hres] at hq
        cases hmut : env.hasMutations id with
        | true =>
          simp only [hmut, if_true] at hq
          exact ih ⟨st.best, st.checked + 1, st.examined ++ [id]⟩ h q hq
        | false =>
          simp only [hmut, Bool.false_eq_true, if_false] at hq
          cases had : adoptCond st.best res with
          | false =>
            simp only [had, Bool.false_eq_true, if_false] at hq
            exact ih ⟨st.best, st.checked + 1, st.examined ++ [id]⟩ h q hq
          | true =>
            simp only [had, if_true] at hq
            by_cases h15 : res < 1.5
            · simp only [h15, if_true] at hq
              have hq2 : (id, res) = q := by simpa using hq
              rw [← hq2]
              exact hmut
            · simp only [h15, if_false] at hq
              refine ih ⟨some (id, res), st.checked + 1, st.examined ++ [id]⟩ ?_ q hq
              intro p hp
              have hp2 : (id, res) = p := by simpa using hp
              rw [← hp2]
              exact hmut

/-- Reading `check_mutations_in_pdb e = false` entity by entity: no polymer
entity in range that answers the lookup reports a nonzero mutation count. -/
lemma check_mutations_eq_false (e : PdbEntry)
    (h : check_mutations_in_pdb e = false) :
    ∀ k, k < e.polymerEntityCount →
      ∀ m₁ m₂, e.entityMutCounts (k + 1) = some (m₁, m₂) → m₁ = 0 ∧ m₂ = 0 := by
  intro k hk m₁ m₂ hcounts
  rw [check_mutations_in_pdb, List.any_eq_false] at h
  have := h k (List.mem_range.mpr hk)
  rw [hcounts] at this
  simp only [Bool.or_eq_true, decide_eq_true_eq, not_or, not_lt,
    Nat.le_zero] at this
  exact this

/-- C2: once the search loop of `find_best_pdb_structure` adopts a best
candidate whose resolution is strictly below 1.5 Å, it stops at once: the
loop result records only the adopting identifier as newly examined — no
identifier of the remaining list is looked up (neither its metadata nor its
mutations, which are only ever fetched for examined identifiers) — even
though the checked-count is still below `max_check`. -/
theorem find_best_early_exit (env : SelectorEnv) (maxCheck : Nat)
    (id : String) (rest : List String) (st : SearchState) (r : ℚ)
    (hc : st.checked < maxCheck)
    (hres : env.resolutionOf id = some r)
    (hmut : env.hasMutations id = false)
    (hadopt : adoptCond st.best r = true)
    (hlt : r < 1.5) :
    searchLoop env maxCheck (id :: rest) st =
      ⟨some (id, r), st.checked + 1, st.examined ++ [id]⟩ := by
  have h1 : ¬ maxCheck ≤ st.checked := not_le.mpr hc
  simp only [searchLoop, h1, if_false, hres]
  simp [hmut, hadopt, hlt]

/-- C2 witness: in `envEarly`, candidate E1 (resolution 1.2 Å, no
mutations) is adopted and the search stops with E1 as the only examined
identifier, although E2 and E3 remain and `max_check` (100) has headroom. -/
theorem find_best_early_exit_witness :
    searchLoop envEarly 100 ["E1", "E2", "E3"] ⟨none, 0, []⟩ =
      ⟨some ("E1", 1.2), 1, ["E1"]⟩ := by
  have h := find_best_early_exit envEarly 100 "E1" ["E2", "E3"] ⟨none, 0, []⟩ 1.2
    (by norm_num)
    (by simp +decide [envEarly])
    (by simp +decide [SelectorEnv.hasMutations, envEarly, check_mutations_in_pdb, noMutEntry])
    (by simp [adoptCond])
    (by norm_num)
  simpa using h

/-- C3: for every environment and `max_check`, the checked-count of the
search loop of `find_best_pdb_structure`, started from the initial state,
never exceeds `max_check`, whatever the candidate list; and a candidate
whose resolution lookup yields nothing (non-X-ray method or unavailable
resolution) is skipped without counting: prepending it to the list leaves
the final checked-count unchanged. -/
theorem find_best_max_check (env : SelectorEnv) (maxCheck : Nat) :
    (∀ ids, (searchLoop env maxCheck ids ⟨none, 0, []⟩).checked ≤ maxCheck) ∧
    (∀ id ids st, env.resolutionOf id = none →
      (searchLoop env maxCheck (id :: ids) st).checked =
        (searchLoop env maxCheck ids st).checked) := by
  constructor
  · intro ids
    exact searchLoop_checked_le env maxCheck ids ⟨none, 0, []⟩ (Nat.zero_le _)
  · intro id ids st hskip
    by_cases hm : maxCheck ≤ st.checked
    · rw [searchLoop_stop env maxCheck _ st hm, searchLoop_stop env maxCheck _ st hm]
    · rw [searchLoop]
      simp only [hm, if_false, hskip]
      obtain ⟨b, c, e⟩ := st
      rw [searchLoop_examined_shift env maxCheck ids b c (e ++ [id]),
        searchLoop_examined_shift env maxCheck ids b c e]

/-- C3 witness: with `max_check = 1` the loop over `envAB`'s candidates
checks at most one candidate, and prepending the unknown identifier Z
(whose resolution lookup fails) does not change the checked-count. -/
theorem find_best_max_check_witness :
    (searchLoop envAB 1 ["A", "B"] ⟨none, 0, []⟩).checked ≤ 1 ∧
    (searchLoop envAB 1 ["Z", "A", "B"] ⟨none, 0, []⟩).checked =
      (searchLoop envAB 1 ["A", "B"] ⟨none, 0, []⟩).checked :=
  ⟨(find_best_max_check envAB 1).1 ["A", "B"],
   (find_best_max_check envAB 1).2 "Z" ["A", "B"] ⟨none, 0, []⟩
     (by simp +decide [envAB])⟩

/-- C4: at any step of the search loop, a surviving candidate (X-ray
resolution available, mutation-free) whose resolution is not strictly
lower than the current best's is never adopted: the loop continues on the
remaining identifiers with `best_candidate` unchanged (only the
checked-count and the examined trace grow). With equal resolutions this
means the first-encountered candidate keeps the slot and the later
equal-resolution candidate is not adopted. -/
theorem find_best_strict_improvement (env : SelectorEnv) (maxCheck : Nat)
    (id : String) (rest : List String) (st : SearchState) (b : String) (rb r : ℚ)
    (hbest : st.best = some (b, rb))
    (hc : st.checked < maxCheck)
    (hres : env.resolutionOf id = some r)
    (hmut : env.hasMutations id = false)
    (hge : rb ≤ r) :
    searchLoop env maxCheck (id :: rest) st =
      searchLoop env maxCheck rest ⟨st.best, st.checked + 1, st.examined ++ [id]⟩ := by
  have h1 : ¬ maxCheck ≤ st.checked := not_le.mpr hc
  simp only [searchLoop, h1, if_false, hres]
  simp [hmut, adoptCond, hbest, not_lt.mpr hge]

/-- C4 witness: in `envTie` the current best is A at 1.8 Å; candidate B,
also at 1.8 Å and mutation-free, is not adopted — the loop moves on with A
still the best candidate, so the first-encountered candidate wins the tie. -/
theorem find_best_strict_improvement_witness :
    searchLoop envTie 100 ["B"] ⟨some ("A", 1.8), 1, ["A"]⟩ =
      searchLoop envTie 100 [] ⟨some ("A", 1.8), 2, ["A", "B"]⟩ := by
  have h := find_best_strict_improvement envTie 100 "B" [] ⟨some ("A", 1.8), 1, ["A"]⟩
    "A" 1.8 1.8 rfl (by norm_num)
    (by simp +decide [envTie])
    (by simp +decide [SelectorEnv.hasMutations, envTie, check_mutations_in_pdb, noMutEntry])
    le_rfl
  simpa using h

/-- C5: `find_best_pdb_structure` never returns a candidate with mutations:
whenever it returns `(pdb_id, path)`, the mutation check for that id is
negative — equivalently, no polymer entity of that entry that answers the
lookup reports a nonzero mutation count in either field. Moreover on the
scenario list [(A, res=1.8, mut=True), (B, res=2.5, mut=False)] the
Selector returns B, although A has the better resolution. -/
theorem find_best_no_mutations :
    (∀ (env : SelectorEnv) (name : String) (maxCheck : Nat) (pid path : String),
      find_best_pdb_structure env name maxCheck = some (pid, path) →
        env.hasMutations pid = false ∧
        ∀ k, k < (env.entryOf pid).polymerEntityCount →
          ∀ m₁ m₂, (env.entryOf pid).entityMutCounts (k + 1) = some (m₁, m₂) →
            m₁ = 0 ∧ m₂ = 0) ∧
    find_best_pdb_structure envAB "prot" 100 = some ("B", "proteins/B.pdb") := by
  constructor
  · intro env name maxCheck pid path hfind
    unfold find_best_pdb_structure at hfind
    split at hfind
    · exact absurd hfind (by simp)
    · rename_i uid hu
      by_cases hids : env.pdbIdsOf uid = []
      · rw [if_pos hids] at hfind; exact absurd hfind (by simp)
      · rw [if_neg hids] at hfind
        cases hb : (searchLoop env maxCheck (env.pdbIdsOf uid) ⟨none, 0, []⟩).best with
        | none => rw [hb] at hfind; exact absurd hfind (by simp)
        | some pr =>
          rw [hb] at hfind
          obtain ⟨p₁, p₂⟩ := pr
          simp only [Option.map_eq_some'] at hfind
          obtain ⟨a, _, heq⟩ := hfind
          have hpid : p₁ = pid := congrArg Prod.fst heq
          have hnomut : env.hasMutations p₁ = false :=
            searchLoop_best_mutFree env maxCheck (env.pdbIdsOf uid) ⟨none, 0, []⟩
              (by intro p hp; exact absurd hp (by simp)) (p₁, p₂) hb
          rw [hpid] at hnomut
          exact ⟨hnomut, check_mutations_eq_false _ hnomut⟩
  · simp +decide [find_best_pdb_structure, envAB, searchLoop, adoptCond,
      SelectorEnv.hasMutations, check_mutations_in_pdb, mutEntry, noMutEntry]

/-- C5 witness: applying C5 to the concrete scenario environment shows the
returned candidate B passes the mutation check. -/
theorem find_best_no_mutations_witness :
    SelectorEnv.hasMutations envAB "B" = false :=
  (find_best_no_mutations.1 envAB "prot" 100 "B" "proteins/B.pdb"
    find_best_no_mutations.2).1

/-! Helper lemmas about the docking driver. -/

/-- Under the preconditions, the pose files written are exactly
`persistedPoseFiles env`, whatever the threshold outcome. -/
lemma run_molecular_docking_snd (env : DockEnv)
    (hprep : env.prepared_pdbqt = true) (hcsv : env.prankweb_csv = true)
    (hfold : env.ligand_folder = true) (hligs : env.ligands ≠ []) :
    (run_molecular_docking env).2 = persistedPoseFiles env := by
  have hne : env.ligands.isEmpty = false := List.isEmpty_eq_false.mpr hligs
  by_cases hs : (summaryData env).isEmpty = true <;>
    simp [run_molecular_docking, hprep, hcsv, hfold, hne, hs]

/-- `poseLE` is total. -/
lemma poseLE_total (a b : PoseRec) : (poseLE a b || poseLE b a) = true := by
  simp only [poseLE, Bool.or_eq_true, decide_eq_true_eq]
  exact le_total _ _

/-- `poseLE` is transitive. -/
lemma poseLE_trans (a b c : PoseRec) :
    poseLE a b = true → poseLE b c = true → poseLE a c = true := by
  simp only [poseLE, decide_eq_true_eq]
  exact le_trans

/-- C6: for every (ligand, pocket) pair processed by
`run_molecular_docking`, the full unfiltered pose set of the pair (capped
at the engine's 10 poses) is persisted to the per-pair pose file whatever
the threshold outcome, and a pose is recorded as a good pose exactly when
its binding energy is ≤ −7.0 kcal/mol. -/
theorem docking_good_pose_threshold (env : DockEnv) (lig : String) (pk : Pocket)
    (hlig : lig ∈ env.ligands) (hpk : pk ∈ env.pockets)
    (hprep : env.prepared_pdbqt = true) (hcsv : env.prankweb_csv = true)
    (hfold : env.ligand_folder = true) :
    (lig, pk.name, pairScores env lig pk) ∈ (run_molecular_docking env).2 ∧
    ∀ i, ∀ hi : i < (pairScores env lig pk).length,
      ((⟨lig, pk.name, i + 1, (pairScores env lig pk).get ⟨i, hi⟩,
         pk.center_x, pk.center_y, pk.center_z⟩ : PoseRec) ∈ pairGoodPoses env lig pk ↔
        (pairScores env lig pk).get ⟨i, hi⟩ ≤ -7) := by
  constructor
  · rw [run_molecular_docking_snd env hprep hcsv hfold (List.ne_nil_of_mem hlig)]
    exact List.mem_flatMap.mpr ⟨lig, hlig, List.mem_map.mpr ⟨pk, hpk, rfl⟩⟩
  · intro i hi
    constructor
    · intro hmem
      rw [pairGoodPoses] at hmem
      simp only [List.mem_map, List.mem_filter] at hmem
      obtain ⟨⟨j, e⟩, ⟨hj_enum, hcond⟩, heq⟩ := hmem
      simp only [PoseRec.mk.injEq] at heq
      obtain ⟨-, -, hji, hei, -⟩ := heq
      have hj : j = i := by omega
      rw [← hei]
      simpa using hcond
    · intro hle
      rw [pairGoodPoses]
      refine List.mem_map.mpr ⟨(i, (pairScores env lig pk).get ⟨i, hi⟩),
        List.mem_filter.mpr ⟨?_, by simpa using hle⟩, rfl⟩
      refine List.mem_enum_iff_getElem?.mpr ?_
      simp [List.getElem?_eq_getElem hi]

/-- C6 witness: in `dockEnvGood` the pair (lig1, p1) persists its full
pose list [−9.0, −8.2, −5.0], and its rank-1 pose at −9.0 kcal/mol is
recorded as a good pose. -/
theorem docking_good_pose_threshold_witness :
    ("lig1", "p1", pairScores dockEnvGood "lig1" ⟨"p1", 1, 2, 3⟩) ∈
      (run_molecular_docking dockEnvGood).2 ∧
    (⟨"lig1", "p1", 1, -9.0, 1, 2, 3⟩ : PoseRec) ∈
      pairGoodPoses dockEnvGood "lig1" ⟨"p1", 1, 2, 3⟩ := by
  have hps : pairScores dockEnvGood "lig1" ⟨"p1", 1, 2, 3⟩ = [-9.0, -8.2, -5.0] := by
    simp +decide [pairScores, dockEnvGood]
  have h := docking_good_pose_threshold dockEnvGood "lig1" ⟨"p1", 1, 2, 3⟩
    (by simp [dockEnvGood]) (by simp [dockEnvGood]) rfl rfl rfl
  refine ⟨h.1, ?_⟩
  have hi : 0 < (pairScores dockEnvGood "lig1" ⟨"p1", 1, 2, 3⟩).length := by
    rw [hps]; norm_num
  have h2 := (h.2 0 hi).mpr (by rw [List.get_eq_getElem]; simp [hps]; norm_num)
  rw [List.get_eq_getElem] at h2
  simpa [hps] using h2

/-- C7: for every ligand with at least one good pose, its summary rows are
its good poses (across all its pockets) under the stable ascending sort by
full-precision binding energy with only the first 3 kept; the rows are
sorted ascending, every kept row's energy is ≤ the energy of every excluded
good pose, kept and excluded rows together are exactly the ligand's good
poses, a ligand with ≥ 4 good poses therefore contributes exactly 3 rows,
and the rounding of the persisted summary (energies to 3 decimals,
coordinates to 2 via `roundRow`) is applied to the rows only after this
full-precision selection. -/
theorem docking_top3_full_precision (env : DockEnv) (lig : String)
    (h1 : ligandBestPoses env lig ≠ []) :
    ligandSummaryRows env lig = ((ligandBestPoses env lig).mergeSort poseLE).take 3 ∧
    List.Pairwise (fun a b : PoseRec => a.binding_energy ≤ b.binding_energy)
      (ligandSummaryRows env lig) ∧
    (∀ a ∈ ligandSummaryRows env lig,
      ∀ b ∈ ((ligandBestPoses env lig).mergeSort poseLE).drop 3,
        a.binding_energy ≤ b.binding_energy) ∧
    (ligandSummaryRows env lig ++
      ((ligandBestPoses env lig).mergeSort poseLE).drop 3).Perm
        (ligandBestPoses env lig) ∧
    (4 ≤ (ligandBestPoses env lig).length → (ligandSummaryRows env lig).length = 3) ∧
    summaryDf env = (summaryData env).map roundRow := by
  have hne : (ligandBestPoses env lig).isEmpty = false :=
    List.isEmpty_eq_false.mpr h1
  have hrows : ligandSummaryRows env lig =
      ((ligandBestPoses env lig).mergeSort poseLE).take 3 := by
    rw [ligandSummaryRows, hne]
    simp [ligandTop3]
  have hlen : ((ligandBestPoses env lig).mergeSort poseLE).length =
      (ligandBestPoses env lig).length := List.length_mergeSort _
  have hsorted : List.Pairwise (fun a b : PoseRec =>
      a.binding_energy ≤ b.binding_energy)
      ((ligandBestPoses env lig).mergeSort poseLE) := by
    refine (List.sorted_mergeSort poseLE_trans poseLE_total
      (ligandBestPoses env lig)).imp ?_
    intro a b hab
    simpa [poseLE] using hab
  have hsplit : ((ligandBestPoses env lig).mergeSort poseLE).take 3 ++
      ((ligandBestPoses env lig).mergeSort poseLE).drop 3 =
      (ligandBestPoses env lig).mergeSort poseLE := List.take_append_drop _ _
  have hcross := (List.pairwise_append.mp (hsplit ▸ hsorted)).2.2
  refine ⟨hrows, ?_, ?_, ?_, ?_, rfl⟩
  · rw [hrows]
    exact List.Pairwise.sublist (List.take_sublist _ _) hsorted
  · intro a ha b hb
    rw [hrows] at ha
    exact hcross a ha b hb
  · rw [hrows, hsplit]
    exact List.mergeSort_perm _ _
  · intro h4
    rw [hrows, List.length_take, hlen]
    omega

/-- C7 witness: in `dockEnvGood` ligand lig1 has 4 good poses
(−9.0, −8.2, −7.5, −7.1), so the theorem applies and yields exactly 3
sorted summary rows. -/
theorem docking_top3_full_precision_witness :
    (ligandSummaryRows dockEnvGood "lig1").length = 3 ∧
    List.Pairwise (fun a b : PoseRec => a.binding_energy ≤ b.binding_energy)
      (ligandSummaryRows dockEnvGood "lig1") := by
  have hlb : ligandBestPoses dockEnvGood "lig1" ≠ [] := by
    simp +decide [ligandBestPoses, pairGoodPoses, pairScores, dockEnvGood,
      List.enum, List.flatMap]
    norm_num
  have h := docking_top3_full_precision dockEnvGood "lig1" hlb
  refine ⟨h.2.2.2.2.1 ?_, h.2.1⟩
  simp +decide [ligandBestPoses, pairGoodPoses, pairScores, dockEnvGood,
    List.enum, List.flatMap]
  norm_num

/-- C8: under the docking preconditions, a ligand with zero good poses
contributes zero rows to the summary (not an error); when no ligand
produced any good pose, `run_molecular_docking` reports the distinct
no-qualifying-poses outcome; and a success outcome never carries an empty
summary table. -/
theorem docking_no_qualifying_poses (env : DockEnv)
    (hprep : env.prepared_pdbqt = true) (hcsv : env.prankweb_csv = true)
    (hfold : env.ligand_folder = true) (hligs : env.ligands ≠ []) :
    (∀ lig, ligandBestPoses env lig = [] → ligandSummaryRows env lig = []) ∧
    ((∀ lig ∈ env.ligands, ligandBestPoses env lig = []) →
      (run_molecular_docking env).1 = DockOutcome.noQualifyingPoses) ∧
    ∀ s, (run_molecular_docking env).1 = DockOutcome.success s → s ≠ [] := by
  have hne : env.ligands.isEmpty = false := List.isEmpty_eq_false.mpr hligs
  have hzero : ∀ lig, ligandBestPoses env lig = [] → ligandSummaryRows env lig = [] := by
    intro lig h
    rw [ligandSummaryRows, h]
    simp
  refine ⟨hzero, ?_, ?_⟩
  · intro hall
    have hs : summaryData env = [] := by
      rw [summaryData, List.flatMap_eq_nil_iff]
      intro lig hmem
      exact hzero lig (hall lig hmem)
    simp [run_molecular_docking, hprep, hcsv, hfold, hne, hs]
  · intro s hsucc
    by_cases hs : (summaryData env).isEmpty = true
    · rw [run_molecular_docking] at hsucc
      simp [hprep, hcsv, hfold, hne, hs] at hsucc
    · rw [run_molecular_docking] at hsucc
      simp only [hprep, hcsv, hfold, hne, hs, not_true, Bool.not_eq_true,
        if_false, Bool.false_eq_true, ite_false, DockOutcome.success.injEq] at hsucc
      rw [Bool.not_eq_true, List.isEmpty_eq_false] at hs
      subst hsucc
      intro hdf
      rw [summaryDf] at hdf
      exact hs (List.map_eq_nil_iff.mp hdf)

/-- C8 witness: in `dockEnvNone` no pose reaches −7.0 kcal/mol, and the
run reports the distinct no-qualifying-poses outcome. -/
theorem docking_no_qualifying_poses_witness :
    (run_molecular_docking dockEnvNone).1 = DockOutcome.noQualifyingPoses :=
  (docking_no_qualifying_poses dockEnvNone rfl rfl rfl
    (by simp [dockEnvNone])).2.1
    (by
      intro lig hmem
      simp +decide [ligandBestPoses, pairGoodPoses, pairScores, dockEnvNone,
        List.enum, List.flatMap]
      norm_num)

/-! Helper lemmas about the Cleaner. -/

/-- Filtering first does not change a `filterMap` when everything the
`filterMap` would keep passes the filter. -/
lemma filterMap_filter_eq {α β : Type} (f : α → Option β) (p : α → Bool)
    (h : ∀ x, f x ≠ none → p x = true) :
    ∀ ls : List α, (ls.filter p).filterMap f = ls.filterMap f := by
  intro ls
  induction ls with
  | nil => rfl
  | cons a l ih =>
    by_cases hp : p a = true
    · rw [List.filter_cons_of_pos hp, List.filterMap_cons, List.filterMap_cons, ih]
    · have hf : f a = none := by
        by_contra hfa
        exact hp (h a hfa)
      rw [List.filter_cons_of_neg (by simpa using hp), List.filterMap_cons, hf, ih]

/-- Pass 2 never changes which serial numbers pass 1 collects: every atom
line of the retained chain survives the filter, and no other line
contributes a serial. -/
lemma retainedSerials_filter (keep : Char) (R : List Nat) (ls : List PdbLine) :
    retainedSerials (ls.filter (keepLine R keep)) keep = retainedSerials ls keep := by
  unfold retainedSerials
  apply filterMap_filter_eq
  intro x hx
  cases x with
  | atom s c =>
    cases s with
    | none => simp at hx
    | some n =>
      cases c with
      | none => simp at hx
      | some c =>
        by_cases hc : c = keep
        · simp [keepLine, hc]
        · simp [hc] at hx
  | hetatm s c => simp at hx
  | conect ss => simp at hx
  | other t => simp at hx

/-- C9: the Structure Cleaner is idempotent — running it a second time on
its own output with the same chain returns that output unchanged, and the
second run removes nothing: zero heteroatom lines, zero connectivity
lines, and no foreign chains remain. -/
theorem cleaner_idempotent (ls : List PdbLine) (keep : Char) :
    (remove_ligands_from_pdb (remove_ligands_from_pdb ls keep).1 keep).1 =
      (remove_ligands_from_pdb ls keep).1 ∧
    (remove_ligands_from_pdb
      (remove_ligands_from_pdb ls keep).1 keep).2.heteroatoms_removed = 0 ∧
    (remove_ligands_from_pdb
      (remove_ligands_from_pdb ls keep).1 keep).2.connectivity_removed = 0 ∧
    (remove_ligands_from_pdb
      (remove_ligands_from_pdb ls keep).1 keep).2.chains_removed = [] := by
  have hfst : (remove_ligands_from_pdb ls keep).1 =
      ls.filter (keepLine (retainedSerials ls keep) keep) := rfl
  have hR2 : retainedSerials (remove_ligands_from_pdb ls keep).1 keep =
      retainedSerials ls keep := by
    rw [hfst]
    exact retainedSerials_filter keep _ ls
  have hmem : ∀ l ∈ (remove_ligands_from_pdb ls keep).1,
      keepLine (retainedSerials ls keep) keep l = true := by
    intro l hl
    rw [hfst] at hl
    exact (List.mem_filter.mp hl).2
  refine ⟨?_, ?_, ?_, ?_⟩
  · show ((remove_ligands_from_pdb ls keep).1.filter
      (keepLine (retainedSerials (remove_ligands_from_pdb ls keep).1 keep) keep)) = _
    rw [hR2]
    exact List.filter_eq_self.mpr hmem
  · show ((remove_ligands_from_pdb ls keep).1.countP
      (fun l => match l with | .hetatm _ _ => true | _ => false)) = 0
    rw [List.countP_eq_zero]
    intro l hl
    cases l with
    | hetatm s c =>
      have := hmem _ hl
      simp [keepLine] at this
    | atom s c => simp
    | conect ss => simp
    | other t => simp
  · show ((remove_ligands_from_pdb ls keep).1.countP fun l =>
      match l with
      | .conect ss => !(ss.all fun n =>
          decide (n ∈ retainedSerials (remove_ligands_from_pdb ls keep).1 keep))
      | _ => false) = 0
    rw [hR2, List.countP_eq_zero]
    intro l hl
    cases l with
    | conect ss =>
      have := hmem _ hl
      simp only [keepLine] at this
      simp [this]
    | atom s c => simp
    | hetatm s c => simp
    | other t => simp
  · show ((remove_ligands_from_pdb ls keep).1.filterMap (foreignChainOf keep)).dedup = []
    have hnil : (remove_ligands_from_pdb ls keep).1.filterMap (foreignChainOf keep) = [] := by
      rw [List.filterMap_eq_nil_iff]
      intro l hl
      have hk := hmem _ hl
      cases l with
      | atom s c =>
        cases c with
        | none => simp [keepLine] at hk
        | some c =>
          simp only [keepLine, decide_eq_true_eq] at hk
          simp [foreignChainOf, hk]
      | hetatm s c => simp [keepLine] at hk
      | conect ss => simp [foreignChainOf]
      | other t => simp [foreignChainOf]
    rw [hnil]
    rfl

/-- C10: `run_admet_prediction` returns a 3-tuple on every invocation and
never `None`: when no ligand pose file is found, or when no valid SMILES
could be generated, it returns the failure tuple `(message, None, None)`;
since `process_admet` treats only a `None` result as failure, both failure
tuples are rendered through its success branch. -/
theorem admet_failure_tuple_rendering (env : AdmetEnv) :
    (run_admet_prediction env).isSome = true ∧
    (env.pdbFiles = [] →
      run_admet_prediction env = some (noFilesMsg, none, none) ∧
      process_admet (run_admet_prediction env) =
        AdmetRender.success noFilesMsg none none) ∧
    (env.pdbFiles ≠ [] → compounds env = [] →
      run_admet_prediction env = some (noSmilesMsg, none, none) ∧
      process_admet (run_admet_prediction env) =
        AdmetRender.success noSmilesMsg none none) := by
  refine ⟨?_, ?_, ?_⟩
  · rw [run_admet_prediction]
    split_ifs <;> rfl
  · intro h
    rw [run_admet_prediction, if_pos h]
    exact ⟨rfl, rfl⟩
  · intro h1 h2
    rw [run_admet_prediction, if_neg h1, if_pos h2]
    exact ⟨rfl, rfl⟩

/-- C10 witness: with no ligand pose files on disk, the ADMET run returns
the failure tuple and `process_admet` renders it through the success
branch (showing the failure message as a success status). -/
theorem admet_failure_tuple_rendering_witness :
    run_admet_prediction emptyAdmetEnv = some (noFilesMsg, none, none) ∧
    process_admet (run_admet_prediction emptyAdmetEnv) =
      AdmetRender.success noFilesMsg none none :=
  (admet_failure_tuple_rendering emptyAdmetEnv).2.1 rfl

/-- C1: the claim fails on the code — `run_admet_prediction` assigns no
verdict at all. On a concrete run whose only ligand is predicted
Ames-positive (0.97), the returned report row carries the raw Ames value,
has no "Verdict" cell (no display column is named "Verdict"), contains the
string "REJECT" nowhere, and the run still reports plain success; the
rule cascade the specification (and the ADMET tab text of src/app.py)
describes is absent from src/admet_analysis.py. -/
theorem admet_ames_positive_no_reject :
    (final_table amesEnv).length = 1 ∧
    ((final_table amesEnv).headD []).lookup "Ames" = some (.num (97/100)) ∧
    ((final_table amesEnv).headD []).lookup "Verdict" = none ∧
    "Verdict" ∉ DISPLAY_COLUMNS ∧
    ((final_table amesEnv).headD []).all
      (fun cell => decide (cell.2 ≠ PValue.str "REJECT")) = true ∧
    run_admet_prediction amesEnv =
      some (analysisMsg 1, some (final_table amesEnv), some admetCsvPath) := by
  refine ⟨?_, ?_, ?_, ?_, ?_, ?_⟩
  · simp [final_table, compounds, amesEnv]
  · simp +decide [final_table, compounds, amesEnv, cleanRow, existingCols,
      allColumns, unionKeys, admetColumns, DISPLAY_COLUMNS, fullRow, admeRow,
      admetRow, fullAdme, amesPositivePreds, roundCell, numericCols,
      PValue.orNA, List.lookup]
  · simp +decide [final_table, compounds, amesEnv, cleanRow, existingCols,
      allColumns, unionKeys, admetColumns, DISPLAY_COLUMNS, fullRow, admeRow,
      admetRow, fullAdme, amesPositivePreds, roundCell, numericCols,
      PValue.orNA, List.lookup]
  · simp +decide [DISPLAY_COLUMNS]
  · simp +decide [final_table, compounds, amesEnv, cleanRow, existingCols,
      allColumns, unionKeys, admetColumns, DISPLAY_COLUMNS, fullRow, admeRow,
      admetRow, fullAdme, amesPositivePreds, roundCell, numericCols,
      PValue.orNA, roundTo]
  · rw [run_admet_prediction]
    rw [if_neg (by simp [amesEnv]), if_neg (by simp [compounds, amesEnv])]
    have hlen : (final_table amesEnv).length = 1 := by
      simp [final_table, compounds, amesEnv]
    rw [hlen]
